import Mathlib

/-!
Verification of the serialized rate-limited request executor and the local
storage helpers of the AnimeK-Companion repository.

The executor lives in `src/api/jikanApi.ts` (module-level state
`lastRequestTime`, `pendingRequests`, `isProcessingQueue`; functions
`executeWithRateLimit` and `processRequestQueue`).  The program runs on a
single-threaded JavaScript event loop, so its observable behaviour on a given
sequence of submissions is deterministic; we embed it as

  * a trace semantics `processRequestQueueTrace` giving, for each submitted
    job, the real time at which its operation is invoked and the real time at
    which it settles, threading `lastRequestTime` exactly as the source does
    (updated to `Date.now()` after a successful `await apiCall()`, left
    unchanged when the call throws); and
  * a synchronous-prefix model (`submitInvokesOperationSynchronously`,
    `processRequestQueueCheck`, `submitTriggersDrain`) of the code that runs
    synchronously inside a call to `executeWithRateLimit` before control
    returns to the caller.

The search-history helper lives in the storage utility module
(`addToSearchHistory`): AsyncStorage is modelled by passing the stored list in
and returning the list written back.  The Jikan list fetcher
(`fetchAnimeList`) is embedded as a total function of the outcome of the
underlying `axios.get` call.
-/

/-- Source `jikanApi.ts` line 8: `const API_COOLDOWN_MS = 500`. -/
def API_COOLDOWN_MS : Nat := 500

/-- A job submitted to the executor, abstracted to what determines the
executor's observable behaviour: the real time at which the caller invokes
`executeWithRateLimit` (pushing the job's thunk onto `pendingRequests`,
line 22), how long the operation takes between invocation and settlement, and
whether it settles by resolving (`ok = true`) or by throwing
(`ok = false`). -/
structure Job where
  submitTime : Nat
  duration : Nat
  ok : Bool
deriving DecidableEq, Repr

/-- One entry of the executor's observable trace: when the job's `apiCall()`
was invoked (line 33), when it settled, and whether it resolved. -/
structure TraceEntry where
  startTime : Nat
  settleTime : Nat
  ok : Bool
deriving DecidableEq, Repr

/-- The time at which the drain loop dequeues a job (line 58): the loop is
busy until `free` (the settlement time of the previous job, which the loop
awaits at line 62, or the previous idle point), and the job cannot be
dequeued before it was pushed at `j.submitTime`; whichever is later. -/
def dequeueAt (free : Nat) (j : Job) : Nat :=
  max j.submitTime free

/-- The time at which a job's `apiCall()` is invoked.  Lines 25-33 of the
source: at dequeue time `now`, the thunk computes
`timeToWait = Math.max(0, lastRequestTime + API_COOLDOWN_MS - now)` (line 26;
`Nat` truncated subtraction is exactly the `Math.max(0, ...)`), sleeps that
long (line 29), then calls `apiCall()` (line 33). -/
def startAt (lastRequestTime free : Nat) (j : Job) : Nat :=
  dequeueAt free j + (lastRequestTime + API_COOLDOWN_MS - dequeueAt free j)

/-- The time at which a job settles: its operation runs for `j.duration`
after being invoked. -/
def settleAt (lastRequestTime free : Nat) (j : Job) : Nat :=
  startAt lastRequestTime free j + j.duration

/-- Trace semantics of the drain loop (`processRequestQueue`, lines 51-70,
running the thunks built at lines 22-39).  Jobs are listed in submission
order (`pendingRequests.push` at line 22 / `shift` at line 58 is FIFO).  For
each job the drain loop, free at time `free`, dequeues it, waits out the
cooldown, invokes its operation, and awaits its settlement before recursing
(line 62 / line 69).  `lastRequestTime` is threaded as in the source: line 34
sets it to `Date.now()` only after `await apiCall()` resolves, so it becomes
the settlement time on success and is left unchanged when `apiCall` throws
(the catch at line 36 rejects the outer promise without touching it). -/
def processRequestQueueTrace (lastRequestTime free : Nat) : List Job → List TraceEntry
  | [] => []
  | j :: rest =>
    ⟨startAt lastRequestTime free j, settleAt lastRequestTime free j, j.ok⟩ ::
      processRequestQueueTrace
        (if j.ok then settleAt lastRequestTime free j else lastRequestTime)
        (settleAt lastRequestTime free j) rest

/-- The executor's module-level mutable state (`jikanApi.ts` lines 9-11),
with the queue abstracted to its length. -/
structure ExecutorState where
  lastRequestTime : Nat
  pendingCount : Nat
  isProcessingQueue : Bool
deriving DecidableEq, Repr

/-- Line 22: `executeWithRateLimit` synchronously pushes the job's thunk onto
`pendingRequests`. -/
def submitEnqueue (s : ExecutorState) : ExecutorState :=
  { s with pendingCount := s.pendingCount + 1 }

/-- Lines 42-44: after pushing, `executeWithRateLimit` calls
`processRequestQueue()` exactly when `isProcessingQueue` is false. -/
def submitTriggersDrain (s : ExecutorState) : Bool :=
  !s.isProcessingQueue

/-- The synchronous head of `processRequestQueue` (lines 51-58): if the queue
is empty it clears `isProcessingQueue` and returns (the loop stops);
otherwise it sets the flag and shifts the head job off the queue.  The `Bool`
is whether the loop continues to run a job. -/
def processRequestQueueCheck (s : ExecutorState) : Bool × ExecutorState :=
  if s.pendingCount = 0 then
    (false, { s with isProcessingQueue := false })
  else
    (true, { s with isProcessingQueue := true, pendingCount := s.pendingCount - 1 })

/-- Whether a call to `executeWithRateLimit` at real time `now`, against
state `s`, invokes the submitted operation synchronously before returning.
The `Promise` executor (line 20) runs synchronously: it pushes the thunk
(line 22) and, if `isProcessingQueue` is false (line 42), calls
`processRequestQueue()`, whose body runs synchronously up to its first
`await`: it shifts the head of the queue (line 58) — which is the
just-pushed thunk exactly when the queue was empty before the push — and
evaluates `nextRequest()` (line 62), running the thunk's body synchronously
up to its first `await`: the thunk computes `timeToWait` (line 26) and, when
`timeToWait` is `0`, skips the sleep and evaluates `apiCall()` (line 33)
synchronously.  So the operation is invoked during the submit call iff the
flag was clear, the queue was empty, and the cooldown had already elapsed. -/
def submitInvokesOperationSynchronously (s : ExecutorState) (now : Nat) : Bool :=
  submitTriggersDrain s && s.pendingCount == 0 &&
    (s.lastRequestTime + API_COOLDOWN_MS - now == 0)

/-- Storage utility: `const MAX_HISTORY_ITEMS = 10`. -/
def MAX_HISTORY_ITEMS : Nat := 10

/-- JavaScript `String.prototype.toLowerCase`, embedded characterwise over
the string's character list. -/
def jsToLowerCase (s : String) : String :=
  ⟨s.data.map Char.toLower⟩

/-- Whether `query.trim()` is the empty string, i.e. the falsy-check
`!query.trim()` at line 25 of the storage utility: `trim()` strips
whitespace from both ends, so the result is empty exactly when every
character of the string is whitespace. -/
def jsIsBlank (s : String) : Bool :=
  s.data.all (fun c => c.isWhitespace)

/-- The search-history updater (storage utility lines 24-40), with
AsyncStorage modelled by passing in the currently stored history and
returning the history written back.  Line 25: a blank query (empty after
`trim()`) is rejected, nothing is stored.  Line 31: entries equal to the
query after `toLowerCase()` are filtered out.  Line 34: the query is
prepended and the list truncated with `slice(0, MAX_HISTORY_ITEMS)`. -/
def addToSearchHistory (query : String) (history : List String) : List String :=
  if jsIsBlank query then history
  else
    (query :: history.filter (fun item => jsToLowerCase item ≠ jsToLowerCase query)).take
      MAX_HISTORY_ITEMS

/-- A catalog entry returned by the Jikan API (`JikanAnime`, jikanApi.ts
lines 87-134).  Only identity fields are modelled; `fetchAnimeList` never
inspects any field of the entries, so the remaining metadata fields are
irrelevant to its control flow. -/
structure JikanAnime where
  mal_id : Nat
  title : String
deriving DecidableEq, Repr

/-- Pagination item counts (`JikanPagination.items`, lines 140-144). -/
structure JikanPaginationItems where
  count : Nat
  total : Nat
  per_page : Nat
deriving DecidableEq, Repr

/-- Pagination metadata (`JikanPagination`, lines 136-145). -/
structure JikanPagination where
  last_visible_page : Nat
  has_next_page : Bool
  current_page : Nat
  items : JikanPaginationItems
deriving DecidableEq, Repr

/-- A well-formed list response (`JikanAnimeListResponse`, lines 147-150). -/
structure JikanAnimeListResponse where
  data : List JikanAnime
  pagination : JikanPagination
deriving DecidableEq, Repr

/-- The error carried by a rejected `axios.get` call. -/
structure AxiosError where
  message : String
deriving DecidableEq, Repr

/-- The raw body of a 2xx response, before validation.  `data = none` models
a `data` field that is missing or not an array (the
`!Array.isArray(response.data.data)` branch of line 185). -/
structure RawListBody where
  data : Option (List JikanAnime)
  pagination : JikanPagination
deriving DecidableEq, Repr

/-- The outcome of the `axios.get` call at lines 169-182: either the promise
rejects (network error, non-2xx status, or the 10 s timeout) carrying an
error, or it resolves with a response whose `data` field may itself be
absent or malformed (`resp = none` models a falsy `response.data`, the
`!response.data` branch of line 185). -/
inductive AxiosResult where
  | failure (err : AxiosError)
  | success (resp : Option RawListBody)
deriving DecidableEq, Repr

/-- The empty-page value built at lines 187 and 205 of the source. -/
def emptyAnimeListResponse : JikanAnimeListResponse :=
  { data := []
    pagination :=
      { last_visible_page := 0
        has_next_page := false
        current_page := 0
        items := { count := 0, total := 0, per_page := 0 } } }

/-- Whether the outcome of the HTTP call falls in a branch that
`fetchAnimeList` degrades to the empty page: the call failed (the catch at
lines 191-206), or `response.data` was falsy, or `response.data.data` was
missing or not an array (line 185). -/
def httpOutcomeIsDegraded : AxiosResult → Bool
  | .failure _ => true
  | .success none => true
  | .success (some body) => body.data.isNone

/-- The operation `fetchAnimeList` submits to the executor (lines 166-207),
as a function of the outcome of the underlying HTTP call.  The result is in
`Except` to model an async function that could reject; every branch of the
source returns (the catch at lines 191-206 returns the empty page instead of
rethrowing), so no branch produces `Except.error`. -/
def fetchAnimeListBody (r : AxiosResult) : Except AxiosError JikanAnimeListResponse :=
  match r with
  | .failure _ => .ok emptyAnimeListResponse
  | .success none => .ok emptyAnimeListResponse
  | .success (some body) =>
    match body.data with
    | none => .ok emptyAnimeListResponse
    | some items => .ok { data := items, pagination := body.pagination }

/-! ### Basic facts about the trace semantics -/

theorem processRequestQueueTrace_length (last free : Nat) (jobs : List Job) :
    (processRequestQueueTrace last free jobs).length = jobs.length := by
  induction jobs generalizing last free with
  | nil => rfl
  | cons j rest ih => simp [processRequestQueueTrace, ih]

theorem le_dequeueAt_left (free : Nat) (j : Job) : j.submitTime ≤ dequeueAt free j :=
  Nat.le_max_left _ _

theorem le_dequeueAt_right (free : Nat) (j : Job) : free ≤ dequeueAt free j :=
  Nat.le_max_right _ _

theorem dequeueAt_le_startAt (last free : Nat) (j : Job) :
    dequeueAt free j ≤ startAt last free j :=
  Nat.le_add_right _ _

theorem free_le_startAt (last free : Nat) (j : Job) : free ≤ startAt last free j :=
  Nat.le_trans (le_dequeueAt_right free j) (dequeueAt_le_startAt last free j)

theorem submitTime_le_startAt (last free : Nat) (j : Job) :
    j.submitTime ≤ startAt last free j :=
  Nat.le_trans (le_dequeueAt_left free j) (dequeueAt_le_startAt last free j)

theorem cooldown_le_startAt (last free : Nat) (j : Job) :
    last + API_COOLDOWN_MS ≤ startAt last free j := by
  unfold startAt
  omega

theorem startAt_le_settleAt (last free : Nat) (j : Job) :
    startAt last free j ≤ settleAt last free j :=
  Nat.le_add_right _ _

theorem trace_map_ok (last free : Nat) (jobs : List Job) :
    (processRequestQueueTrace last free jobs).map TraceEntry.ok = jobs.map Job.ok := by
  induction jobs generalizing last free with
  | nil => rfl
  | cons j rest ih => simp [processRequestQueueTrace, ih]

theorem trace_start_le_settle (jobs : List Job) :
    ∀ (last free i : Nat) (h : i < (processRequestQueueTrace last free jobs).length),
      (processRequestQueueTrace last free jobs)[i].startTime ≤
        (processRequestQueueTrace last free jobs)[i].settleTime := by
  induction jobs with
  | nil => intro last free i h; simp [processRequestQueueTrace] at h
  | cons j rest ih =>
    intro last free i h
    match i with
    | 0 => simpa [processRequestQueueTrace] using startAt_le_settleAt last free j
    | i + 1 =>
      have hlen : i < (processRequestQueueTrace
          (if j.ok then settleAt last free j else last) (settleAt last free j) rest).length := by
        simp [processRequestQueueTrace] at h
        simpa [processRequestQueueTrace_length] using h
      simpa [processRequestQueueTrace] using
        ih (if j.ok then settleAt last free j else last) (settleAt last free j) i hlen

theorem trace_submit_le_start (jobs : List Job) :
    ∀ (last free i : Nat) (h1 : i < jobs.length)
      (h2 : i < (processRequestQueueTrace last free jobs).length),
      jobs[i].submitTime ≤ (processRequestQueueTrace last free jobs)[i].startTime := by
  induction jobs with
  | nil => intro last free i h1 h2; simp at h1
  | cons j rest ih =>
    intro last free i h1 h2
    match i with
    | 0 => simpa [processRequestQueueTrace] using submitTime_le_startAt last free j
    | i + 1 =>
      have h1' : i < rest.length := by simpa using h1
      have h2' : i < (processRequestQueueTrace
          (if j.ok then settleAt last free j else last) (settleAt last free j) rest).length := by
        simpa [processRequestQueueTrace_length] using h1'
      simpa [processRequestQueueTrace] using
        ih (if j.ok then settleAt last free j else last) (settleAt last free j) i h1' h2'

theorem trace_adjacent (jobs : List Job) :
    ∀ (last free i : Nat) (h : i + 1 < (processRequestQueueTrace last free jobs).length),
      (processRequestQueueTrace last free jobs)[i].settleTime ≤
        (processRequestQueueTrace last free jobs)[i + 1].startTime ∧
      ((processRequestQueueTrace last free jobs)[i].ok = true →
        (processRequestQueueTrace last free jobs)[i].settleTime + API_COOLDOWN_MS ≤
          (processRequestQueueTrace last free jobs)[i + 1].startTime) := by
  induction jobs with
  | nil => intro last free i h; simp [processRequestQueueTrace] at h
  | cons j rest ih =>
    intro last free i h
    match i with
    | 0 =>
      match rest with
      | [] =>
        exfalso
        simp [processRequestQueueTrace] at h
      | j2 :: rest2 =>
        constructor
        · simpa [processRequestQueueTrace] using
            free_le_startAt (if j.ok then settleAt last free j else last)
              (settleAt last free j) j2
        · intro hok
          simp [processRequestQueueTrace] at hok ⊢
          rw [if_pos hok]
          exact cooldown_le_startAt (settleAt last free j) (settleAt last free j) j2
    | i + 1 =>
      have hlen : i + 1 < (processRequestQueueTrace
          (if j.ok then settleAt last free j else last) (settleAt last free j) rest).length := by
        simp [processRequestQueueTrace_length] at h ⊢
        omega
      have := ih (if j.ok then settleAt last free j else last) (settleAt last free j) i hlen
      simpa [processRequestQueueTrace] using this

theorem trace_settle_le_later_start (jobs : List Job) (last free : Nat) :
    ∀ (k : Nat) (hk : k < (processRequestQueueTrace last free jobs).length)
      (i : Nat) (hi : i < k),
      (processRequestQueueTrace last free jobs)[i].settleTime ≤
        (processRequestQueueTrace last free jobs)[k].startTime := by
  intro k
  induction k with
  | zero => intro hk i hi; omega
  | succ k ihk =>
    intro hk i hi
    rcases Nat.lt_succ_iff_lt_or_eq.mp hi with hik | hik
    · calc (processRequestQueueTrace last free jobs)[i].settleTime
          ≤ (processRequestQueueTrace last free jobs)[k].startTime :=
            ihk (Nat.lt_of_succ_lt hk) i hik
        _ ≤ (processRequestQueueTrace last free jobs)[k].settleTime :=
            trace_start_le_settle jobs last free k (Nat.lt_of_succ_lt hk)
        _ ≤ (processRequestQueueTrace last free jobs)[k + 1].startTime :=
            (trace_adjacent jobs last free k hk).1
    · subst hik
      exact (trace_adjacent jobs last free i hk).1

theorem trace_start_mono (jobs : List Job) (last free : Nat) :
    ∀ (i k : Nat) (hik : i ≤ k) (hk : k < (processRequestQueueTrace last free jobs).length),
      (processRequestQueueTrace last free jobs)[i].startTime ≤
        (processRequestQueueTrace last free jobs)[k].startTime := by
  intro i k hik hk
  rcases Nat.lt_or_ge i k with hlt | hge
  · exact Nat.le_trans (trace_start_le_settle jobs last free i (Nat.lt_of_lt_of_le hlt (Nat.le_of_lt hk)))
      (trace_settle_le_later_start jobs last free k hk i hlt)
  · have : i = k := Nat.le_antisymm hik hge
    subst this
    exact Nat.le_refl _

/-! ### Claims about the executor -/

/-- C1 counterexample.  The claim states that any two consecutively started
jobs have start times at least `API_COOLDOWN_MS` apart regardless of whether
the earlier job succeeded or failed.  On the source this is false: line 34
updates `lastRequestTime` only when `await apiCall()` resolves, so after a
job that throws, the next job's wait is computed against the stale clock.
Concretely, two jobs submitted at time 1000 (cooldown long elapsed: the
module-level `lastRequestTime` is still `0`, line 9), the first failing
after 100 ms, start at times 1000 and 1100 — only 100 ms apart. -/
theorem rateLimit_minimum_spacing_counterexample :
    (processRequestQueueTrace 0 0
        [⟨1000, 100, false⟩, ⟨1000, 0, true⟩]).map TraceEntry.startTime = [1000, 1100] ∧
    ¬ (1000 + API_COOLDOWN_MS ≤ 1100) := by
  decide

/-- C1, amended: for any two consecutive job start times t1 ≤ t2 where the
job started at t1 settled by resolving, t2 − t1 ≥ `API_COOLDOWN_MS`,
regardless of how long that job took to settle.  (When the earlier job's
operation throws, only t1 ≤ t2 is guaranteed.) -/
theorem rateLimit_minimum_spacing_after_success (jobs : List Job) (i : Nat)
    (h : i + 1 < (processRequestQueueTrace 0 0 jobs).length)
    (hok : (processRequestQueueTrace 0 0 jobs)[i].ok = true) :
    (processRequestQueueTrace 0 0 jobs)[i].startTime + API_COOLDOWN_MS ≤
      (processRequestQueueTrace 0 0 jobs)[i + 1].startTime := by
  have hadj := (trace_adjacent jobs 0 0 i h).2 hok
  have hss := trace_start_le_settle jobs 0 0 i (Nat.lt_of_succ_lt h)
  omega

/-- Witness for the amended C1 at two immediately-resolving jobs submitted
together at time 1000: their start times are 1000 and 1500. -/
theorem rateLimit_minimum_spacing_after_success_witness :
    (processRequestQueueTrace 0 0 [⟨1000, 0, true⟩, ⟨1000, 0, true⟩])[0].startTime +
        API_COOLDOWN_MS ≤
      (processRequestQueueTrace 0 0 [⟨1000, 0, true⟩, ⟨1000, 0, true⟩])[1].startTime :=
  rateLimit_minimum_spacing_after_success [⟨1000, 0, true⟩, ⟨1000, 0, true⟩] 0
    (by decide) (by decide)

/-- C2 counterexample.  The claim states that the cooldown clock is recorded
at the moment of invocation, so that a slow job does not push the next job's
start past `start + API_COOLDOWN_MS`.  On the source this is false: line 34
runs after `await apiCall()`, so `lastRequestTime` is set to the completion
time.  Concretely, a job started at time 1000 that takes 2000 ms to resolve
is followed by a job started at 3500 = settlement 3000 + cooldown 500, far
later than 1000 + 500. -/
theorem rateLimit_clock_at_invocation_counterexample :
    (processRequestQueueTrace 0 0
        [⟨1000, 2000, true⟩, ⟨1000, 0, true⟩]).map TraceEntry.startTime = [1000, 3500] ∧
    ¬ (3500 ≤ 1000 + API_COOLDOWN_MS) := by
  decide

/-- C2, amended: the drain loop records `lastRequestTime = Date.now()` at the
moment a job's operation resolves (line 34 runs after `await apiCall()`), not
at invocation, so the wait computed for the next job is relative to the
previous successful job's completion time: a job already queued when its
successful predecessor settles (within the cooldown window) starts exactly at
the predecessor's settlement time plus `API_COOLDOWN_MS`. -/
theorem rateLimit_clock_recorded_at_completion (last free : Nat) (j j2 : Job)
    (rest : List Job) (hok : j.ok = true)
    (hsub : j2.submitTime ≤ settleAt last free j + API_COOLDOWN_MS) :
    ((processRequestQueueTrace last free (j :: j2 :: rest)).map TraceEntry.startTime).take 2 =
      [startAt last free j, settleAt last free j + API_COOLDOWN_MS] := by
  simp [processRequestQueueTrace, hok]
  rcases Nat.le_total j2.submitTime (settleAt last free j) with hc | hc
  · rw [startAt, dequeueAt, Nat.max_eq_right hc]
    omega
  · rw [startAt, dequeueAt, Nat.max_eq_left hc]
    omega

/-- Witness for the amended C2: with the slow successful job of the
counterexample, the second start is exactly 3000 + 500. -/
theorem rateLimit_clock_recorded_at_completion_witness :
    ((processRequestQueueTrace 0 0
        [⟨1000, 2000, true⟩, ⟨1000, 0, true⟩]).map TraceEntry.startTime).take 2 =
      [startAt 0 0 ⟨1000, 2000, true⟩, settleAt 0 0 ⟨1000, 2000, true⟩ + API_COOLDOWN_MS] :=
  rateLimit_clock_recorded_at_completion 0 0 ⟨1000, 2000, true⟩ ⟨1000, 0, true⟩ []
    rfl (by decide)

/-- C3 (confirmed): execution intervals of distinct jobs never overlap — the
drain loop `await`s the settlement of the current job (line 62) before
recursing (line 69), so any earlier job settles no later than any later job
is invoked. -/
theorem processRequestQueue_mutual_exclusion (jobs : List Job) (i k : Nat)
    (hik : i < k) (hk : k < (processRequestQueueTrace 0 0 jobs).length) :
    (processRequestQueueTrace 0 0 jobs)[i].settleTime ≤
      (processRequestQueueTrace 0 0 jobs)[k].startTime :=
  trace_settle_le_later_start jobs 0 0 k hk i hik

/-- Witness for C3: a 300 ms job and the job behind it — settlement 1300 is
no later than the next start 1800. -/
theorem processRequestQueue_mutual_exclusion_witness :
    (processRequestQueueTrace 0 0 [⟨1000, 300, true⟩, ⟨1000, 0, true⟩])[0].settleTime ≤
      (processRequestQueueTrace 0 0 [⟨1000, 300, true⟩, ⟨1000, 0, true⟩])[1].startTime :=
  processRequestQueue_mutual_exclusion [⟨1000, 300, true⟩, ⟨1000, 0, true⟩] 0 1
    (by decide) (by decide)

/-- C4 (confirmed): jobs are started in strict FIFO submission order.  The
trace lists jobs in submission order (`push` at line 22 appends to the tail,
`shift` at line 58 removes from the head), and along the trace start times
are monotone: a job submitted earlier is started no later than any job
submitted after it, even when all are submitted before any has started. -/
theorem executeWithRateLimit_fifo_order (jobs : List Job) (i k : Nat)
    (hik : i ≤ k) (hk : k < (processRequestQueueTrace 0 0 jobs).length) :
    (processRequestQueueTrace 0 0 jobs)[i].startTime ≤
      (processRequestQueueTrace 0 0 jobs)[k].startTime :=
  trace_start_mono jobs 0 0 i k hik hk

/-- Witness for C4: three jobs A, B, C submitted together before any has
started; A's start is no later than C's. -/
theorem executeWithRateLimit_fifo_order_witness :
    (processRequestQueueTrace 0 0
        [⟨1000, 0, true⟩, ⟨1000, 0, true⟩, ⟨1000, 0, true⟩])[0].startTime ≤
      (processRequestQueueTrace 0 0
        [⟨1000, 0, true⟩, ⟨1000, 0, true⟩, ⟨1000, 0, true⟩])[2].startTime :=
  executeWithRateLimit_fifo_order [⟨1000, 0, true⟩, ⟨1000, 0, true⟩, ⟨1000, 0, true⟩]
    0 2 (by decide) (by decide)

/-- C5 counterexample.  The claim states that `executeWithRateLimit` never
invokes the operation synchronously during the submit call, even when the
queue is empty and the cooldown has elapsed.  On the source this is false:
the `Promise` executor (line 20) runs synchronously, calls
`processRequestQueue()` (line 43) whose body runs synchronously to its first
`await` — shifting the just-pushed thunk (line 58) and running it to its
first `await`, which, when `timeToWait` is 0, is `await apiCall()` itself
(line 33), so `apiCall()` is evaluated before submit returns.  Concretely:
submitting at time 1000 to the pristine idle state (`lastRequestTime = 0`,
empty queue, flag clear — lines 9-11) invokes the operation synchronously. -/
theorem executeWithRateLimit_synchronous_invocation_counterexample :
    submitInvokesOperationSynchronously
      { lastRequestTime := 0, pendingCount := 0, isProcessingQueue := false } 1000 = true := by
  decide

/-- C5, amended: submit returns a pending promise, and the operation is
invoked synchronously during the submit call exactly when the executor is
idle with an empty queue and the cooldown has already elapsed; in every
other situation (drain loop active, queue non-empty, or cooldown still
running) the invocation is deferred to the executor's scheduling. -/
theorem executeWithRateLimit_synchronous_invocation_iff (s : ExecutorState) (now : Nat) :
    submitInvokesOperationSynchronously s now = true ↔
      (s.isProcessingQueue = false ∧ s.pendingCount = 0 ∧
        s.lastRequestTime + API_COOLDOWN_MS ≤ now) := by
  simp [submitInvokesOperationSynchronously, submitTriggersDrain, Nat.sub_eq_zero_iff_le,
    and_assoc]

/-- C6 (confirmed): outcome isolation.  Every submitted job gets exactly the
outcome of its own operation — the trace's outcome column equals, entry by
entry, the submissions' outcome column (a failure is delivered only through
the corresponding `reject` at line 37, leaving every other entry's outcome
untouched) — and every later job still runs afterward: each job's successor
is invoked no earlier than the job settles, whether it resolved or threw
(the drain loop's try/catch at lines 61-66 swallows the error and recurses
at line 69). -/
theorem executeWithRateLimit_outcome_isolation (jobs : List Job) (last free : Nat) :
    (processRequestQueueTrace last free jobs).map TraceEntry.ok = jobs.map Job.ok ∧
    ∀ (i : Nat) (h : i + 1 < (processRequestQueueTrace last free jobs).length),
      (processRequestQueueTrace last free jobs)[i].settleTime ≤
        (processRequestQueueTrace last free jobs)[i + 1].startTime :=
  ⟨trace_map_ok last free jobs, fun i h => (trace_adjacent jobs last free i h).1⟩

/-- Witness for C6 at jobs A, B, C where B's operation throws: the outcomes
are exactly resolve, throw, resolve, and C is still invoked after B
settles. -/
theorem executeWithRateLimit_outcome_isolation_witness :
    (processRequestQueueTrace 0 0
        [⟨1000, 0, true⟩, ⟨1000, 0, false⟩, ⟨1000, 0, true⟩]).map TraceEntry.ok =
      [true, false, true] ∧
    (processRequestQueueTrace 0 0
        [⟨1000, 0, true⟩, ⟨1000, 0, false⟩, ⟨1000, 0, true⟩])[1].settleTime ≤
      (processRequestQueueTrace 0 0
        [⟨1000, 0, true⟩, ⟨1000, 0, false⟩, ⟨1000, 0, true⟩])[2].startTime :=
  ⟨(executeWithRateLimit_outcome_isolation
      [⟨1000, 0, true⟩, ⟨1000, 0, false⟩, ⟨1000, 0, true⟩] 0 0).1,
   (executeWithRateLimit_outcome_isolation
      [⟨1000, 0, true⟩, ⟨1000, 0, false⟩, ⟨1000, 0, true⟩] 0 0).2 1 (by decide)⟩

/-- C7 (confirmed): the idle transition is not permanent.  When the drain
loop finds the queue empty it clears `isProcessingQueue` and stops
(lines 52-55); a submit against a state with the flag clear triggers
`processRequestQueue` (line 42), whose check then finds the freshly pushed
job, re-sets the flag and dequeues it (lines 57-58); and in the trace
semantics every submitted job is started (the trace covers every
submission, each started no earlier than its submission). -/
theorem processRequestQueue_idle_restart :
    (∀ s : ExecutorState, s.pendingCount = 0 →
        processRequestQueueCheck s = (false, { s with isProcessingQueue := false })) ∧
    (∀ s : ExecutorState, s.isProcessingQueue = false →
        submitTriggersDrain s = true ∧
        (processRequestQueueCheck (submitEnqueue s)).1 = true ∧
        ((processRequestQueueCheck (submitEnqueue s)).2).isProcessingQueue = true) ∧
    (∀ (jobs : List Job) (last free : Nat),
        (processRequestQueueTrace last free jobs).length = jobs.length ∧
        ∀ (i : Nat) (h1 : i < jobs.length)
          (h2 : i < (processRequestQueueTrace last free jobs).length),
          jobs[i].submitTime ≤ (processRequestQueueTrace last free jobs)[i].startTime) := by
  refine ⟨?_, ?_, ?_⟩
  · intro s h
    simp [processRequestQueueCheck, h]
  · intro s h
    refine ⟨by simp [submitTriggersDrain, h], ?_, ?_⟩ <;>
      simp [processRequestQueueCheck, submitEnqueue]
  · intro jobs last free
    exact ⟨processRequestQueueTrace_length last free jobs,
      fun i h1 h2 => trace_submit_le_start jobs last free i h1 h2⟩

/-- Witness for C7: a drained executor (empty queue) has its flag cleared;
a submit against the idle state triggers the drain; a job submitted at time
1200 to a fresh executor is started (at a time no earlier than 1200). -/
theorem processRequestQueue_idle_restart_witness :
    processRequestQueueCheck { lastRequestTime := 700, pendingCount := 0, isProcessingQueue := true } =
      (false, { lastRequestTime := 700, pendingCount := 0, isProcessingQueue := false }) ∧
    submitTriggersDrain { lastRequestTime := 700, pendingCount := 0, isProcessingQueue := false } = true ∧
    (⟨1200, 0, true⟩ : Job).submitTime ≤
      (processRequestQueueTrace 0 0 [⟨1200, 0, true⟩])[0].startTime :=
  ⟨processRequestQueue_idle_restart.1 _ rfl,
   (processRequestQueue_idle_restart.2.1 _ rfl).1,
   (processRequestQueue_idle_restart.2.2 [⟨1200, 0, true⟩] 0 0).2 0 (by decide) (by decide)⟩

/-- C8 (confirmed): the cooldown clock advances only on success.  When a
job's operation throws, the catch at lines 36-38 rejects the caller's
promise without executing line 34, so the recursive drain continues with
`lastRequestTime` unchanged; consequently the job following a failed job
computes its wait against the last successful completion and can start less
than `API_COOLDOWN_MS` after the failed job's start — concretely, after a
job starting at 1000 and failing at 1200, the next job starts at 1200, only
200 ms later. -/
theorem lastRequestTime_unchanged_on_failure :
    (∀ (last free : Nat) (j : Job) (rest : List Job), j.ok = false →
        processRequestQueueTrace last free (j :: rest) =
          ⟨startAt last free j, settleAt last free j, false⟩ ::
            processRequestQueueTrace last (settleAt last free j) rest) ∧
    ((processRequestQueueTrace 0 0
        [⟨1000, 200, false⟩, ⟨1000, 0, true⟩]).map TraceEntry.startTime = [1000, 1200] ∧
      1200 - 1000 < API_COOLDOWN_MS) :=
  ⟨fun last free j rest hok => by simp [processRequestQueueTrace, hok], by decide⟩

/-- Witness for C8: a single failing job leaves the threaded
`lastRequestTime` (first argument of the recursive call) unchanged. -/
theorem lastRequestTime_unchanged_on_failure_witness :
    processRequestQueueTrace 0 0 [⟨600, 100, false⟩] =
      ⟨startAt 0 0 ⟨600, 100, false⟩, settleAt 0 0 ⟨600, 100, false⟩, false⟩ ::
        processRequestQueueTrace 0 (settleAt 0 0 ⟨600, 100, false⟩) [] :=
  lastRequestTime_unchanged_on_failure.1 0 0 ⟨600, 100, false⟩ [] rfl

/-! ### Claims about the storage helpers and the list fetcher -/

/-- C9 (confirmed): for a non-blank query, against a stored history whose
entries are pairwise distinct after lowercasing (the invariant every writer
of this key maintains: the list starts empty, this function filters the
query out before prepending, and the removal helper only deletes), the
stored result has the query as its head, has at most `MAX_HISTORY_ITEMS`
entries, has no two entries equal case-insensitively, and its remaining
entries are a subsequence of the previous history (most-recent-first order
preserved) none of which equals the query up to case. -/
theorem addToSearchHistory_spec (query : String) (history : List String)
    (hq : jsIsBlank query = false)
    (hhist : history.Pairwise (fun a b => jsToLowerCase a ≠ jsToLowerCase b)) :
    (addToSearchHistory query history).head? = some query ∧
    (addToSearchHistory query history).length ≤ MAX_HISTORY_ITEMS ∧
    (addToSearchHistory query history).Pairwise
      (fun a b => jsToLowerCase a ≠ jsToLowerCase b) ∧
    (addToSearchHistory query history).tail.Sublist history ∧
    ∀ x ∈ (addToSearchHistory query history).tail,
      jsToLowerCase x ≠ jsToLowerCase query := by
  have hdef : addToSearchHistory query history =
      query ::
        (history.filter (fun item => jsToLowerCase item ≠ jsToLowerCase query)).take 9 := by
    simp [addToSearchHistory, hq, MAX_HISTORY_ITEMS, List.take_succ_cons]
  rw [hdef]
  refine ⟨rfl, ?_, ?_, ?_, ?_⟩
  · simp [List.length_take, MAX_HISTORY_ITEMS]
  · refine List.pairwise_cons.mpr ⟨?_, ?_⟩
    · intro b hb
      have hb' : b ∈ history.filter (fun item => jsToLowerCase item ≠ jsToLowerCase query) :=
        (List.take_sublist 9 _).subset hb
      have hbq := (List.mem_filter.mp hb').2
      simp at hbq
      exact fun hcontra => hbq hcontra.symm
    · exact List.Pairwise.sublist (List.take_sublist 9 _) (hhist.filter _)
  · exact (List.take_sublist 9 _).trans (List.filter_sublist _)
  · intro x hx
    have hx' : x ∈ history.filter (fun item => jsToLowerCase item ≠ jsToLowerCase query) :=
      (List.take_sublist 9 _).subset hx
    have := (List.mem_filter.mp hx').2
    simpa using this

/-- Witness for C9: adding the query to a history already containing it in a
different case replaces that entry at the head and keeps the rest. -/
theorem addToSearchHistory_spec_witness :
    (addToSearchHistory "Na" ["na", "Bl"]).head? = some "Na" ∧
    (addToSearchHistory "Na" ["na", "Bl"]).length ≤ MAX_HISTORY_ITEMS ∧
    (addToSearchHistory "Na" ["na", "Bl"]).tail.Sublist ["na", "Bl"] :=
  ⟨(addToSearchHistory_spec "Na" ["na", "Bl"] (by decide) (by decide)).1,
   (addToSearchHistory_spec "Na" ["na", "Bl"] (by decide) (by decide)).2.1,
   (addToSearchHistory_spec "Na" ["na", "Bl"] (by decide) (by decide)).2.2.2.1⟩

/-- C10 (confirmed): `fetchAnimeList` never rejects.  Every branch of its
operation returns: when the HTTP call fails, or resolves with a falsy
`response.data`, or with a `data` field that is missing or not an array, the
result is the empty page — empty `data`, `has_next_page = false`,
`current_page = 0`, and all item counts zero (lines 185-188 and 191-206 of
the source) — rather than a propagated error. -/
theorem fetchAnimeList_never_rejects (r : AxiosResult) :
    (∀ e : AxiosError, fetchAnimeListBody r ≠ Except.error e) ∧
    (httpOutcomeIsDegraded r = true →
      fetchAnimeListBody r = Except.ok emptyAnimeListResponse) ∧
    emptyAnimeListResponse.data = [] ∧
    emptyAnimeListResponse.pagination.has_next_page = false ∧
    emptyAnimeListResponse.pagination.current_page = 0 ∧
    emptyAnimeListResponse.pagination.items.count = 0 ∧
    emptyAnimeListResponse.pagination.items.total = 0 ∧
    emptyAnimeListResponse.pagination.items.per_page = 0 := by
  refine ⟨?_, ?_, rfl, rfl, rfl, rfl, rfl, rfl⟩
  · intro e
    rcases r with err | resp
    · simp [fetchAnimeListBody]
    · rcases resp with _ | body
      · simp [fetchAnimeListBody]
      · rcases hb : body.data with _ | items <;> simp [fetchAnimeListBody, hb]
  · intro hdeg
    rcases r with err | resp
    · simp [fetchAnimeListBody]
    · rcases resp with _ | body
      · simp [fetchAnimeListBody]
      · rcases hb : body.data with _ | items
        · simp [fetchAnimeListBody, hb]
        · simp [httpOutcomeIsDegraded, hb] at hdeg

/-- Witness for C10 at a failed HTTP call: the result is the empty page, not
an error. -/
theorem fetchAnimeList_never_rejects_witness :
    fetchAnimeListBody (.failure { message := "timeout" }) =
        Except.ok emptyAnimeListResponse ∧
    fetchAnimeListBody (.failure { message := "timeout" }) ≠
        Except.error { message := "timeout" } :=
  ⟨(fetchAnimeList_never_rejects _).2.1 rfl,
   (fetchAnimeList_never_rejects _).1 _⟩
